import Mathlib

/-!
Verification of the test-execution telemetry core of the repository
(structured logger and Playwright lifecycle listener), shallowly embedded
from the TypeScript source.  Strings are modelled as lists of characters,
timestamps (JS Date values) as natural-number milliseconds.
-/

/-- JS whitespace class: the characters matched by the ECMAScript regular
expression class for whitespace (and removed by String.prototype.trim):
space, tab, line feed, vertical tab, form feed, carriage return, NBSP,
Ogham space mark, the Unicode space range 0x2000-0x200a, line separator,
paragraph separator, narrow NBSP, medium mathematical space, ideographic
space and the byte-order mark. -/
def jsWs (c : Char) : Bool :=
  c.toNat = 0x20 || c.toNat = 0x09 || c.toNat = 0x0a || c.toNat = 0x0b ||
  c.toNat = 0x0c || c.toNat = 0x0d || c.toNat = 0xa0 || c.toNat = 0x1680 ||
  (0x2000 ≤ c.toNat && c.toNat ≤ 0x200a) || c.toNat = 0x2028 || c.toNat = 0x2029 ||
  c.toNat = 0x202f || c.toNat = 0x205f || c.toNat = 0x3000 || c.toNat = 0xfeff

/-- Removal of the maximal trailing run of JS whitespace (the right half of
String.prototype.trim). -/
def trimRight : List Char → List Char
  | [] => []
  | c :: rest =>
    let r := trimRight rest
    if r = [] ∧ jsWs c then [] else c :: r

/-- String.prototype.trim: drop leading and trailing JS whitespace. -/
def jsTrim (l : List Char) : List Char :=
  trimRight (l.dropWhile jsWs)

/-- The replace of the two-character Windows line ending by a single space,
modelling the global regex replace of CR LF in normalizeMessage. -/
def replaceCRLF : List Char → List Char
  | [] => []
  | [c] => [c]
  | c :: d :: rest =>
    if c = '\r' ∧ d = '\n' then ' ' :: replaceCRLF rest
    else c :: replaceCRLF (d :: rest)

/-- Global replace of one character by a space, modelling the single-character
regex replaces of normalizeMessage. -/
def replaceAll (a : Char) (l : List Char) : List Char :=
  l.map (fun c => if c = a then ' ' else c)

/-- Helper for the global regex replace of whitespace runs by a single space:
the boolean records whether the previously consumed character was whitespace
(in which case a further whitespace character extends the current run and
emits nothing). -/
def collapseWsAux : Bool → List Char → List Char
  | _, [] => []
  | prevWs, c :: rest =>
    if jsWs c then
      if prevWs then collapseWsAux true rest
      else ' ' :: collapseWsAux true rest
    else c :: collapseWsAux false rest

/-- Global replace of each maximal whitespace run by a single space. -/
def collapseWs (l : List Char) : List Char :=
  collapseWsAux false l

namespace Logger

/-- Logger.normalizeMessage from the source: trim, replace CR LF, CR, LF and
TAB by spaces, collapse whitespace runs to single spaces, trim again and
truncate to the configured maximum line length (the substring call).  The
commented-out control-character replace of the source is, as in the source,
not performed. -/
def normalizeMessage (maxLen : Nat) (s : List Char) : List Char :=
  List.take maxLen
    (jsTrim (collapseWs (replaceAll '\t' (replaceAll '\n' (replaceAll '\r'
      (replaceCRLF (jsTrim s)))))))

end Logger

/-- Every whitespace character of the list is a plain space. -/
def WsOnlySpace (l : List Char) : Prop :=
  ∀ c ∈ l, jsWs c = true → c = ' '

instance (l : List Char) : Decidable (WsOnlySpace l) :=
  List.decidableBAll _ l

/-- No two adjacent characters of the list are both whitespace; in
particular, together with WsOnlySpace, the list has no run of two or more
consecutive spaces. -/
def NoAdjWs (l : List Char) : Prop :=
  List.Chain' (fun a b => ¬(jsWs a = true ∧ jsWs b = true)) l

instance (l : List Char) : Decidable (NoAdjWs l) :=
  inferInstanceAs (Decidable (List.Chain' _ l))

/-- The LogLevel enum of the source. -/
inductive LogLevel where
  | debug
  | info
  | warn
  | error
  | silent
deriving DecidableEq, Repr

/-- The numeric values of the LogLevel enum members (DEBUG = 0 .. SILENT = 4),
used by the comparison in Logger.log. -/
def LogLevel.toNat : LogLevel → Nat
  | .debug => 0
  | .info => 1
  | .warn => 2
  | .error => 3
  | .silent => 4

/-- The global, fully populated LoggerConfig. -/
structure LoggerConfig where
  level : LogLevel
  enableTimestamps : Bool
  enableColors : Bool
  enableFileLogging : Bool
  logFile : String
  maxLineLength : Nat
  context : String
deriving DecidableEq, Repr

/-- The initial value of Logger.globalConfig. -/
def LoggerConfig.initial : LoggerConfig :=
  { level := .info, enableTimestamps := true, enableColors := true,
    enableFileLogging := false, logFile := "application.log",
    maxLineLength := 200, context := "APP" }

/-- A LogEntry; the JS Date timestamp is modelled as a natural number and the
free-form metadata as an optional display string (the logger never parses
it). -/
structure LogEntry where
  timestamp : Nat
  level : LogLevel
  message : String
  context : String
  metadata : Option String
deriving DecidableEq, Repr

/-- The process-wide mutable state of the Logger class: the global config, the
bounded buffer, the console and file sinks (as the lists of lines written so
far), and whether the file-system capability was acquired. -/
structure LoggerState where
  config : LoggerConfig
  buffer : List LogEntry
  console : List String
  fileSink : List String
  fsAvailable : Bool
deriving DecidableEq, Repr

/-- The state of the Logger class before any logging happened. -/
def LoggerState.initial : LoggerState :=
  { config := LoggerConfig.initial, buffer := [], console := [],
    fileSink := [], fsAvailable := false }

namespace Logger

/-- Logger.getColorCode. -/
def getColorCode (cfg : LoggerConfig) (level : LogLevel) : String :=
  if !cfg.enableColors then "" else
  match level with
  | .debug => "\x1b[36m"
  | .info => "\x1b[32m"
  | .warn => "\x1b[33m"
  | .error => "\x1b[31m"
  | .silent => ""

/-- Logger.getResetCode. -/
def getResetCode (cfg : LoggerConfig) : String :=
  if cfg.enableColors then "\x1b[0m" else ""

/-- Logger.getLevelIcon. -/
def getLevelIcon : LogLevel → String
  | .debug => "🔍"
  | .info => "ℹ️"
  | .warn => "⚠️"
  | .error => "❌"
  | .silent => ""

/-- Logger.getLevelName. -/
def getLevelName : LogLevel → String
  | .debug => "DEBUG"
  | .info => "INFO"
  | .warn => "WARN"
  | .error => "ERROR"
  | .silent => "UNKNOWN"

/-- Model of Date.prototype.toISOString over natural-number timestamps. -/
def isoString (t : Nat) : String := toString t

/-- Logger.formatMessage: optional bracketed timestamp, color code, level
icon, bracketed context when non-empty, the message, and the color reset. -/
def formatMessage (cfg : LoggerConfig) (entry : LogEntry) : String :=
  (if cfg.enableTimestamps then "[" ++ isoString entry.timestamp ++ "] " else "")
  ++ getColorCode cfg entry.level ++ getLevelIcon entry.level
  ++ (if entry.context ≠ "" then "[" ++ entry.context ++ "] " else "")
  ++ entry.message ++ getResetCode cfg

/-- The line Logger.writeToFile appends to the file. -/
def fileLine (entry : LogEntry) : String :=
  isoString entry.timestamp ++ " " ++ getLevelName entry.level ++ " "
  ++ (if entry.context ≠ "" then "[" ++ entry.context ++ "] " else "")
  ++ entry.message ++ "\n"

/-- Logger.writeToFile: append to the file sink only when file logging is
enabled and the file-system capability is held. -/
def writeToFile (st : LoggerState) (entry : LogEntry) : LoggerState :=
  if st.config.enableFileLogging ∧ st.fsAvailable then
    { st with fileSink := st.fileSink ++ [fileLine entry] }
  else st

/-- The buffer update at the end of Logger.log: push the entry, then shift
the oldest entry once when the length exceeds 1000. -/
def ringPush (buf : List LogEntry) (e : LogEntry) : List LogEntry :=
  if (buf ++ [e]).length > 1000 then (buf ++ [e]).tail else buf ++ [e]

/-- Logger.normalizeMessage on the String wrapper of character lists. -/
def normalizeMessageS (maxLen : Nat) (s : String) : String :=
  String.mk (normalizeMessage maxLen s.data)

/-- Logger.log, the core logging method: a strict filter below the configured
minimum level, then entry construction with normalized message, a console
write, a best-effort file write, and the bounded buffer push. -/
def log (now : Nat) (ctx : String) (level : LogLevel) (message : String)
    (metadata : Option String) (st : LoggerState) : LoggerState :=
  if level.toNat < st.config.level.toNat then st
  else
    let entry : LogEntry :=
      { timestamp := now, level := level,
        message := normalizeMessageS st.config.maxLineLength message,
        context := ctx, metadata := metadata }
    let st1 := { st with console := st.console ++ [formatMessage st.config entry] }
    let st2 := writeToFile st1 entry
    { st2 with buffer := ringPush st2.buffer entry }

/-- Logger.debug. -/
def debug (now : Nat) (ctx : String) (message : String) (metadata : Option String)
    (st : LoggerState) : LoggerState :=
  log now ctx .debug message metadata st

/-- Logger.info. -/
def info (now : Nat) (ctx : String) (message : String) (metadata : Option String)
    (st : LoggerState) : LoggerState :=
  log now ctx .info message metadata st

/-- Logger.warn. -/
def warn (now : Nat) (ctx : String) (message : String) (metadata : Option String)
    (st : LoggerState) : LoggerState :=
  log now ctx .warn message metadata st

/-- Logger.error. -/
def error (now : Nat) (ctx : String) (message : String) (metadata : Option String)
    (st : LoggerState) : LoggerState :=
  log now ctx .error message metadata st

/-- Array.prototype.slice at a negated non-negative argument, slice(-n): for
n = 0 the argument is plain 0, so the whole array is returned; for n > 0 the
start index is clamped to max(length - n, 0), so the last n elements (all of
them when n exceeds the length) are returned. -/
def jsSliceNeg (n : Nat) (l : List LogEntry) : List LogEntry :=
  if n = 0 then l else l.drop (l.length - n)

/-- Logger.getRecentLogs: the slice of the buffer at the negated count; the
buffer itself is not touched (the model returns only the read value). -/
def getRecentLogs (count : Nat) (st : LoggerState) : List LogEntry :=
  jsSliceNeg count st.buffer

/-- Logger.clearBuffer. -/
def clearBuffer (st : LoggerState) : LoggerState :=
  { st with buffer := [] }

end Logger

/-- The final statuses Playwright reports for a test (the status union of
TestResult and TestExecutionContext). -/
inductive TestStatus where
  | passed
  | failed
  | skipped
  | timedOut
  | interrupted
deriving DecidableEq, Repr

/-- The status union of TestStepInfo. -/
inductive StepStatus where
  | passed
  | failed
  | skipped
deriving DecidableEq, Repr

/-- A named attachment of a Playwright TestResult. -/
structure Attachment where
  name : String
  path : Option String
deriving DecidableEq, Repr

/-- The part of a Playwright TestCase the listener reads: its title and the
title of its parent suite. -/
structure TestCase where
  title : String
  parentTitle : String
deriving DecidableEq, Repr

/-- The part of a Playwright TestResult the listener reads; the error carries
only its message. -/
structure TestResult where
  status : TestStatus
  error : Option String
  attachments : List Attachment
deriving DecidableEq, Repr

/-- The part of a Playwright TestStep the listener reads. -/
structure TestStep where
  title : String
  error : Option String
deriving DecidableEq, Repr

/-- TestStepInfo of the source. -/
structure TestStepInfo where
  title : String
  startTime : Nat
  endTime : Option Nat
  duration : Option Int
  status : StepStatus
  error : Option String
deriving DecidableEq, Repr

/-- TestExecutionContext of the source. -/
structure TestExecutionContext where
  testName : String
  suiteName : String
  startTime : Nat
  endTime : Option Nat
  duration : Option Int
  status : TestStatus
  error : Option String
  screenshots : Option (List String)
  videos : Option (List String)
  steps : List TestStepInfo
deriving DecidableEq, Repr

/-- SuiteExecutionContext of the source (the tests field is initialized empty
and never appended to by the source). -/
structure SuiteExecutionContext where
  suiteName : String
  startTime : Nat
  endTime : Option Nat
  duration : Option Int
  tests : List TestExecutionContext
  passed : Nat
  failed : Nat
  skipped : Nat
  total : Nat
deriving DecidableEq, Repr

/-- JS Map.get over the insertion-ordered association-list model of a Map. -/
def mapGet {α : Type} (k : String) : List (String × α) → Option α
  | [] => none
  | (k', v) :: rest => if k' = k then some v else mapGet k rest

/-- JS Map.set: replace the value in place when the key exists (keeping the
insertion order), append otherwise. -/
def mapSet {α : Type} (k : String) (v : α) : List (String × α) → List (String × α)
  | [] => [(k, v)]
  | (k', v') :: rest => if k' = k then (k, v) :: rest else (k', v') :: mapSet k v rest

/-- Mutation of the value stored under a key when present (a JS Map.get
followed by in-place object mutation); a map without the key is unchanged. -/
def mapModify {α : Type} (k : String) (f : α → α) : List (String × α) → List (String × α)
  | [] => []
  | (k', v) :: rest => if k' = k then (k', f v) :: rest else (k', v) :: mapModify k f rest

/-- TestListenerConfig, fully populated. -/
structure TestListenerConfig where
  outputDir : String
  enableConsoleLogging : Bool
  enableFileLogging : Bool
  enableScreenshots : Bool
  enableVideos : Bool
  enableTimestamps : Bool
  customReportName : String
deriving DecidableEq, Repr

/-- The defaults merged in the PlaywrightTestListener constructor. -/
def TestListenerConfig.defaults : TestListenerConfig :=
  { outputDir := "./test-results", enableConsoleLogging := true,
    enableFileLogging := true, enableScreenshots := true,
    enableVideos := true, enableTimestamps := true,
    customReportName := "test-execution-report" }

/-- The mutable state of a PlaywrightTestListener instance.  The trace field
records, in order, the message strings the listener hands to the
process-wide logger (through info, step and the info-with-metadata calls). -/
structure ListenerState where
  config : TestListenerConfig
  executionContext : List (String × TestExecutionContext)
  suiteContext : List (String × SuiteExecutionContext)
  globalStartTime : Option Nat
  globalEndTime : Option Nat
  trace : List String
deriving DecidableEq, Repr

/-- A freshly constructed listener with the default config. -/
def ListenerState.initial : ListenerState :=
  { config := TestListenerConfig.defaults, executionContext := [],
    suiteContext := [], globalStartTime := none, globalEndTime := none,
    trace := [] }

/-- A Playwright suite as the listener walks it: a title and child suites. -/
inductive SuiteTree where
  | mk : String → List SuiteTree → SuiteTree

/-- The title of a suite node. -/
def SuiteTree.title : SuiteTree → String
  | .mk t _ => t

/-- The child suites of a suite node. -/
def SuiteTree.suites : SuiteTree → List SuiteTree
  | .mk _ s => s

mutual

/-- All suite titles occurring in a tree, the root included. -/
def SuiteTree.titles : SuiteTree → List String
  | .mk title suites => title :: SuiteTree.titlesList suites

/-- All suite titles occurring in a list of trees. -/
def SuiteTree.titlesList : List SuiteTree → List String
  | [] => []
  | t :: ts => SuiteTree.titles t ++ SuiteTree.titlesList ts

end

namespace PlaywrightTestListener

/-- The message text of Logger.step: icon, the status word, the step name and
the duration suffix (omitted when the duration is absent or zero, the JS
falsy check). -/
def stepMessage (stepName : String) (status : String) (duration : Option Int) : String :=
  let durationStr :=
    match duration with
    | some d => if d = 0 then "" else " (" ++ toString d ++ "ms)"
    | none => ""
  let icon :=
    if status = "started" then "🔹" else if status = "completed" then "✅" else "❌"
  icon ++ " Step " ++ status ++ ": " ++ stepName ++ durationStr

/-- Appending one logger message to the listener trace. -/
def emit (st : ListenerState) (line : String) : ListenerState :=
  { st with trace := st.trace ++ [line] }

/-- PlaywrightTestListener.getTestId. -/
def getTestId (test : TestCase) : String :=
  test.parentTitle ++ "::" ++ test.title

/-- The suite-name fallback written in onTestSuiteStart and onTestFinish as
a JS or-expression over the possibly empty title. -/
def suiteKeyOf (title : String) : String :=
  if title = "" then "Root Suite" else title

/-- PlaywrightTestListener.getStatusIcon. -/
def getStatusIcon : TestStatus → String
  | .passed => "✅"
  | .failed => "❌"
  | .skipped => "⏭️"
  | .timedOut => "⏰"
  | .interrupted => "🚫"

/-- The separator line the listener logs around suite banners: 63 repeats
of the box-drawing light horizontal character. -/
def dashLine : String :=
  String.mk (List.replicate 63 '─')

/-- The banner line the listener logs around run banners: 63 repeats of the
box-drawing double horizontal character. -/
def barLine : String :=
  String.mk (List.replicate 63 '═')

/-- PlaywrightTestListener.onTestSuiteStart: create and store a fresh
SuiteExecutionContext under the suite name, then log the banner. -/
def onTestSuiteStart (now : Nat) (title : String) (st : ListenerState) : ListenerState :=
  let suiteName := suiteKeyOf title
  let ctx : SuiteExecutionContext :=
    { suiteName := suiteName, startTime := now, endTime := none,
      duration := none, tests := [], passed := 0, failed := 0,
      skipped := 0, total := 0 }
  let st := { st with suiteContext := mapSet suiteName ctx st.suiteContext }
  let st := emit st dashLine
  emit st ("📋 Test suite started: " ++ suiteName)

mutual

/-- PlaywrightTestListener.initializeSuites: visit this suite if it has a
title (the root does not), then the child suites recursively. -/
def initializeSuites (now : Nat) (st : ListenerState) : SuiteTree → ListenerState
  | .mk title suites =>
    initializeSuitesList now
      (if title ≠ "" then onTestSuiteStart now title st else st) suites

/-- The recursion of initializeSuites over the child-suite list. -/
def initializeSuitesList (now : Nat) (st : ListenerState) : List SuiteTree → ListenerState
  | [] => st
  | t :: ts => initializeSuitesList now (initializeSuites now st t) ts

end

/-- PlaywrightTestListener.onTestBegin: store a fresh TestExecutionContext
under the composite test id (default status passed, empty step list), and log
the start line.  The onTestStart hook it then calls is a no-op. -/
def onTestBegin (now : Nat) (st : ListenerState) (test : TestCase) : ListenerState :=
  let testId := getTestId test
  let context : TestExecutionContext :=
    { testName := test.title, suiteName := test.parentTitle,
      startTime := now, endTime := none, duration := none,
      status := .passed, error := none, screenshots := none,
      videos := none, steps := [] }
  let st := { st with executionContext := mapSet testId context st.executionContext }
  emit st ("🧪 Test started: " ++ test.parentTitle ++ " > " ++ test.title)

/-- PlaywrightTestListener.onStepBegin: when the test context exists, append
an open TestStepInfo (status passed, no end time) and log the started step. -/
def onStepBegin (now : Nat) (st : ListenerState) (test : TestCase) (step : TestStep) :
    ListenerState :=
  let testId := getTestId test
  match mapGet testId st.executionContext with
  | none => st
  | some _ =>
    let stepInfo : TestStepInfo :=
      { title := step.title, startTime := now, endTime := none,
        duration := none, status := .passed, error := none }
    let st :=
      { st with executionContext :=
          (mapModify testId (fun c => { c with steps := c.steps ++ [stepInfo] })
            st.executionContext) }
    emit st (stepMessage step.title "started" none)

/-- The predicate of the Array.prototype.find call in onStepEnd: a step with
the ended step's title and no end time yet. -/
def openMatching (t : String) (s : TestStepInfo) : Bool :=
  s.title == t && s.endTime.isNone

/-- The mutation onStepEnd applies to the found step: end time, duration,
status failed exactly when an error is given, and the error message when
present. -/
def closeStepInfo (now : Nat) (stepError : Option String) (s : TestStepInfo) :
    TestStepInfo :=
  let s := { s with endTime := some now,
                    duration := some ((now : Int) - (s.startTime : Int)),
                    status := if stepError.isSome then StepStatus.failed
                              else StepStatus.passed }
  match stepError with
  | some m => { s with error := some m }
  | none => s

/-- Replacement of the first element satisfying the predicate, modelling the
in-place mutation of the object Array.prototype.find returned. -/
def updateFirstWhere {α : Type} (p : α → Bool) (f : α → α) : List α → List α
  | [] => []
  | x :: xs => if p x then f x :: xs else x :: updateFirstWhere p f xs

/-- PlaywrightTestListener.onStepEnd: find the first step of the test context
with matching title and no end time; when found, close it and log the
completed or failed step with its duration. -/
def onStepEnd (now : Nat) (st : ListenerState) (test : TestCase) (step : TestStep) :
    ListenerState :=
  let testId := getTestId test
  match mapGet testId st.executionContext with
  | none => st
  | some context =>
    match context.steps.find? (openMatching step.title) with
    | none => st
    | some found =>
      let closed := closeStepInfo now step.error found
      let st :=
        { st with executionContext :=
            (mapModify testId
              (fun c =>
                { c with steps :=
                    (updateFirstWhere (openMatching step.title)
                      (closeStepInfo now step.error) c.steps) })
              st.executionContext) }
      let status := if closed.status = StepStatus.passed then "completed" else "failed"
      emit st (stepMessage step.title status closed.duration)

/-- The switch of onTestFinish: total always increments; passed, skipped and
the failed bucket (absorbing failed, timedOut and interrupted) increment per
the final status. -/
def bumpSuite (status : TestStatus) (c : SuiteExecutionContext) : SuiteExecutionContext :=
  let c := { c with total := c.total + 1 }
  match status with
  | .passed => { c with passed := c.passed + 1 }
  | .failed => { c with failed := c.failed + 1 }
  | .timedOut => { c with failed := c.failed + 1 }
  | .interrupted => { c with failed := c.failed + 1 }
  | .skipped => { c with skipped := c.skipped + 1 }

/-- PlaywrightTestListener.onTestFinish: look the owning suite up under the
parent title (or the "Root Suite" fallback) and, when present, bump its
buckets. -/
def onTestFinish (st : ListenerState) (test : TestCase) (result : TestResult) :
    ListenerState :=
  let suiteName := suiteKeyOf test.parentTitle
  { st with suiteContext := mapModify suiteName (bumpSuite result.status) st.suiteContext }

/-- PlaywrightTestListener.onTestEnd: when the test context exists, set its
end time, duration, status, error and attachment lists and log the completion
(and the error when present); then, in every case, run onTestFinish. -/
def onTestEnd (now : Nat) (st : ListenerState) (test : TestCase) (result : TestResult) :
    ListenerState :=
  let testId := getTestId test
  let st :=
    match mapGet testId st.executionContext with
    | none => st
    | some context =>
      let duration : Int := (now : Int) - (context.startTime : Int)
      let st :=
        { st with executionContext :=
            (mapModify testId
              (fun c =>
                let c := { c with endTime := some now,
                                  duration := some ((now : Int) - (c.startTime : Int)),
                                  status := result.status }
                let c :=
                  match result.error with
                  | some m => { c with error := some m }
                  | none => c
                let c :=
                  if st.config.enableScreenshots then
                    { c with screenshots :=
                        (some ((result.attachments.filter (fun a => a.name == "screenshot")).map
                          (fun a => a.path.getD ""))) }
                  else c
                if st.config.enableVideos then
                  { c with videos :=
                      (some ((result.attachments.filter (fun a => a.name == "video")).map
                        (fun a => a.path.getD ""))) }
                else c)
              st.executionContext) }
      let st :=
        emit st (getStatusIcon result.status ++ " Test completed: " ++ test.parentTitle
          ++ " > " ++ test.title ++ " (" ++ toString duration ++ "ms)")
      match result.error with
      | some m => emit st ("   Error: " ++ m)
      | none => st
  onTestFinish st test result

/-- The grand totals onEnd computes by summing every suite context's buckets. -/
structure GrandTotals where
  tests : Nat
  passed : Nat
  failed : Nat
  skipped : Nat
deriving DecidableEq, Repr

/-- The summation loop of onEnd over all suite contexts. -/
def computeGrandTotals (st : ListenerState) : GrandTotals :=
  st.suiteContext.foldl
    (fun acc p =>
      { tests := acc.tests + p.2.total, passed := acc.passed + p.2.passed,
        failed := acc.failed + p.2.failed, skipped := acc.skipped + p.2.skipped })
    { tests := 0, passed := 0, failed := 0, skipped := 0 }

/-- The per-suite block of log lines the summary loop of onTestSuiteFinish
emits: the completed line, the totals line, the failed-count warning exactly
when the suite has failures, and a blank separator line. -/
def suiteSummaryBlock (now : Nat) (name : String) (ctx : SuiteExecutionContext) :
    List String :=
  let duration : Int := (now : Int) - (ctx.startTime : Int)
  ["📋 Suite completed: " ++ name,
   "📊 Total: " ++ toString ctx.total ++ ", Passed: " ++ toString ctx.passed
     ++ ", Failed: " ++ toString ctx.failed ++ ", Skipped: " ++ toString ctx.skipped
     ++ ", Duration: " ++ toString duration ++ "ms"]
  ++ (if ctx.failed > 0 then
        ["❌ Suite had " ++ toString ctx.failed ++ " failed test(s)"]
      else [])
  ++ [""]

/-- PlaywrightTestListener.onTestSuiteFinish: nothing but a notice when no
suites exist or none has tests; otherwise the summary header followed by one
block per suite with at least one recorded test (suites with zero tests are
filtered out), while the end time and duration of each such suite are set. -/
def onTestSuiteFinish (now : Nat) (st : ListenerState) : ListenerState :=
  if st.suiteContext.length = 0 then emit st "📋 No test suites found"
  else
    let suitesWithTests := st.suiteContext.filter (fun p => p.2.total > 0)
    if suitesWithTests.length = 0 then emit st "📋 No suites with tests found"
    else
      let st :=
        { st with suiteContext :=
            st.suiteContext.map (fun p =>
              if p.2.total > 0 then
                (p.1, { p.2 with endTime := some now,
                                 duration := some ((now : Int) - (p.2.startTime : Int)) })
              else p) }
      let st := emit st "📋 Test Suite Summary:"
      let st := emit st dashLine
      { st with trace :=
          st.trace ++ (suitesWithTests.map (fun p => suiteSummaryBlock now p.1 p.2)).flatten }

/-- PlaywrightTestListener.onBegin: record the global start time, log the run
banner, then initialize every titled suite recursively. -/
def onBegin (now : Nat) (projects workers : Nat) (outputDir : String)
    (rootSuite : SuiteTree) (st : ListenerState) : ListenerState :=
  let st := { st with globalStartTime := some now }
  let st := emit st barLine
  let st := emit st "🚀 Test execution started"
  let st := emit st ("📊 Configuration: Projects=" ++ toString projects
    ++ ", Workers=" ++ toString workers)
  let st := emit st ("📁 Output directory: " ++ outputDir)
  let st := emit st barLine
  initializeSuites now st rootSuite

/-- PlaywrightTestListener.onEnd: record the global end time, log the closing
banner with the run duration and overall status, log the grand totals when
any test was recorded, then run onTestSuiteFinish. -/
def onEnd (now : Nat) (overall : String) (st : ListenerState) : ListenerState :=
  let st := { st with globalEndTime := some now }
  let totalDuration : Int := (now : Int) - ((st.globalStartTime.getD 0 : Nat) : Int)
  let st := emit st barLine
  let st := emit st ("🏁 Test execution completed in " ++ toString totalDuration ++ "ms")
  let st := emit st ("📊 Overall Results: " ++ overall.toUpper)
  let g := computeGrandTotals st
  let st :=
    if g.tests > 0 then
      emit st ("📊 Grand Total: " ++ toString g.tests ++ " tests - "
        ++ toString g.passed ++ " passed, " ++ toString g.failed ++ " failed, "
        ++ toString g.skipped ++ " skipped")
    else st
  let st := emit st barLine
  onTestSuiteFinish now st

end PlaywrightTestListener

/-- Lookup after modifying the value stored under the same key. -/
theorem mapGet_mapModify_self {α : Type} (k : String) (f : α → α) (m : List (String × α)) :
    mapGet k (mapModify k f m) = (mapGet k m).map f := by
  induction m with
  | nil => rfl
  | cons p rest ih =>
    obtain ⟨k', v⟩ := p
    by_cases h : k' = k
    · simp [mapModify, mapGet, h]
    · simp [mapModify, mapGet, h, ih]

/-- Modifying an absent key changes nothing. -/
theorem mapModify_of_get_none {α : Type} (k : String) (f : α → α) (m : List (String × α))
    (h : mapGet k m = none) : mapModify k f m = m := by
  induction m with
  | nil => rfl
  | cons p rest ih =>
    obtain ⟨k', v⟩ := p
    by_cases hk : k' = k
    · simp [mapGet, hk] at h
    · simp [mapGet, hk] at h
      simp [mapModify, hk, ih h]

/-- Lookup of a key other than the one set. -/
theorem mapGet_mapSet_ne {α : Type} (k k' : String) (v : α) (m : List (String × α))
    (h : k' ≠ k) : mapGet k (mapSet k' v m) = mapGet k m := by
  induction m with
  | nil => simp [mapSet, mapGet, h]
  | cons p rest ih =>
    obtain ⟨k'', v'⟩ := p
    by_cases hk : k'' = k'
    · subst hk
      simp [mapSet, mapGet, h]
    · simp [mapSet, mapGet, hk, ih]

/-- onTestBegin touches only the execution contexts and the trace. -/
theorem onTestBegin_suiteContext (now : Nat) (st : ListenerState) (test : TestCase) :
    (PlaywrightTestListener.onTestBegin now st test).suiteContext = st.suiteContext := rfl

/-- The suite contexts after onTestEnd are exactly those of the incoming
state with the bump of onTestFinish applied under the owning suite's key. -/
theorem onTestEnd_suiteContext (now : Nat) (st : ListenerState) (test : TestCase)
    (result : TestResult) :
    (PlaywrightTestListener.onTestEnd now st test result).suiteContext
      = mapModify (PlaywrightTestListener.suiteKeyOf test.parentTitle)
          (PlaywrightTestListener.bumpSuite result.status) st.suiteContext := by
  unfold PlaywrightTestListener.onTestEnd PlaywrightTestListener.onTestFinish
  cases hm : mapGet (PlaywrightTestListener.getTestId test) st.executionContext <;>
    cases he : result.error <;>
      simp [PlaywrightTestListener.emit, hm, he]

/-- C5: a testBegin followed by a testEnd on the same test, with the owning
suite's context present, increments that suite's total by exactly one and
exactly one of its passed, failed and skipped buckets by exactly one, with
status passed counted as passed, skipped as skipped, and each of failed,
timedOut and interrupted absorbed into the failed bucket. -/
theorem testEnd_bumps_owning_suite (now now' : Nat) (st : ListenerState)
    (test : TestCase) (result : TestResult) (ctx : SuiteExecutionContext)
    (h : mapGet (PlaywrightTestListener.suiteKeyOf test.parentTitle) st.suiteContext
          = some ctx) :
    ∃ ctx', mapGet (PlaywrightTestListener.suiteKeyOf test.parentTitle)
        (PlaywrightTestListener.onTestEnd now'
          (PlaywrightTestListener.onTestBegin now st test) test result).suiteContext
        = some ctx' ∧
      ctx'.total = ctx.total + 1 ∧
      ctx'.passed + ctx'.failed + ctx'.skipped
        = ctx.passed + ctx.failed + ctx.skipped + 1 ∧
      ctx'.passed = ctx.passed + (if result.status = .passed then 1 else 0) ∧
      ctx'.failed = ctx.failed + (if result.status = .failed ∨ result.status = .timedOut
        ∨ result.status = .interrupted then 1 else 0) ∧
      ctx'.skipped = ctx.skipped + (if result.status = .skipped then 1 else 0) := by
  refine ⟨PlaywrightTestListener.bumpSuite result.status ctx, ?_, ?_, ?_, ?_, ?_, ?_⟩
  · rw [onTestEnd_suiteContext, onTestBegin_suiteContext, mapGet_mapModify_self, h]
    rfl
  all_goals cases result.status <;> simp [PlaywrightTestListener.bumpSuite] <;> omega

/-- Witness for testEnd_bumps_owning_suite at a concrete begun suite and a
timedOut result. -/
theorem testEnd_bumps_owning_suite_witness :
    ∃ ctx', mapGet "Login"
        (PlaywrightTestListener.onTestEnd 2
          (PlaywrightTestListener.onTestBegin 1
            (PlaywrightTestListener.onTestSuiteStart 0 "Login" ListenerState.initial)
            ⟨"A", "Login"⟩)
          ⟨"A", "Login"⟩ ⟨.timedOut, none, []⟩).suiteContext = some ctx' ∧
      ctx'.total = 0 + 1 ∧
      ctx'.passed + ctx'.failed + ctx'.skipped = 0 + 0 + 0 + 1 ∧
      ctx'.passed = 0 + (if TestStatus.timedOut = .passed then 1 else 0) ∧
      ctx'.failed = 0 + (if TestStatus.timedOut = .failed ∨ TestStatus.timedOut = .timedOut
        ∨ TestStatus.timedOut = .interrupted then 1 else 0) ∧
      ctx'.skipped = 0 + (if TestStatus.timedOut = .skipped then 1 else 0) :=
  testEnd_bumps_owning_suite 1 2
    (PlaywrightTestListener.onTestSuiteStart 0 "Login" ListenerState.initial)
    ⟨"A", "Login"⟩ ⟨.timedOut, none, []⟩
    { suiteName := "Login", startTime := 0, endTime := none, duration := none,
      tests := [], passed := 0, failed := 0, skipped := 0, total := 0 }
    (by decide)

/-- Counterexample to C6 as stated: the suite "Login" has been begun but the
test key "Login::X" was never begun (no execution context exists for it);
processing the testEnd nevertheless increments the Login suite's total and
passed counters from zero to one, because onTestFinish looks up only the
suite, never the test key. -/
theorem c6_counterexample :
    mapGet ("Login" ++ "::" ++ "X")
        (PlaywrightTestListener.onTestSuiteStart 0 "Login"
          ListenerState.initial).executionContext = none ∧
      (mapGet "Login"
          (PlaywrightTestListener.onTestEnd 1
            (PlaywrightTestListener.onTestSuiteStart 0 "Login" ListenerState.initial)
            ⟨"X", "Login"⟩ ⟨.passed, none, []⟩).suiteContext).map
          SuiteExecutionContext.total = some 1 ∧
      (mapGet "Login"
          (PlaywrightTestListener.onTestSuiteStart 0 "Login"
            ListenerState.initial).suiteContext).map
          SuiteExecutionContext.total = some 0 := by
  decide

/-- C6 amended: a testEnd whose composite key was never begun raises no
exception (the model is a total function) and changes no execution context;
it changes no suite's counters when the owning suite's context does not
exist either — but when the owning suite exists its counters are still
incremented, as the counterexample shows. -/
theorem testEnd_unbegun_noop (now : Nat) (st : ListenerState) (test : TestCase)
    (result : TestResult)
    (h1 : mapGet (PlaywrightTestListener.getTestId test) st.executionContext = none)
    (h2 : mapGet (PlaywrightTestListener.suiteKeyOf test.parentTitle) st.suiteContext
          = none) :
    (PlaywrightTestListener.onTestEnd now st test result).executionContext
        = st.executionContext ∧
      (PlaywrightTestListener.onTestEnd now st test result).suiteContext
        = st.suiteContext := by
  constructor
  · unfold PlaywrightTestListener.onTestEnd PlaywrightTestListener.onTestFinish
    simp [h1]
  · rw [onTestEnd_suiteContext, mapModify_of_get_none _ _ _ h2]

/-- Witness for testEnd_unbegun_noop: a testEnd for a key never begun, in a
state whose only suite is not the owning one. -/
theorem testEnd_unbegun_noop_witness :
    (PlaywrightTestListener.onTestEnd 1
        (PlaywrightTestListener.onTestSuiteStart 0 "Other" ListenerState.initial)
        ⟨"X", "Login"⟩ ⟨.passed, none, []⟩).executionContext
      = (PlaywrightTestListener.onTestSuiteStart 0 "Other"
          ListenerState.initial).executionContext ∧
    (PlaywrightTestListener.onTestEnd 1
        (PlaywrightTestListener.onTestSuiteStart 0 "Other" ListenerState.initial)
        ⟨"X", "Login"⟩ ⟨.passed, none, []⟩).suiteContext
      = (PlaywrightTestListener.onTestSuiteStart 0 "Other"
          ListenerState.initial).suiteContext :=
  testEnd_unbegun_noop 1
    (PlaywrightTestListener.onTestSuiteStart 0 "Other" ListenerState.initial)
    ⟨"X", "Login"⟩ ⟨.passed, none, []⟩ (by decide) (by decide)

/-- find? over a split list whose prefix contains no match returns the head
of the suffix. -/
theorem find?_split {α : Type} (p : α → Bool) (pre post : List α) (s : α)
    (hs : p s = true) (hpre : ∀ x ∈ pre, p x = false) :
    (pre ++ s :: post).find? p = some s := by
  induction pre with
  | nil => simpa using List.find?_cons_of_pos post hs
  | cons a pre ih =>
    have ha : p a = false := hpre a (by simp)
    rw [List.cons_append, List.find?_cons_of_neg _ (by simp [ha])]
    exact ih (fun x hx => hpre x (by simp [hx]))

/-- Replacing the first match in a split list whose prefix contains no match
rewrites exactly the head of the suffix. -/
theorem updateFirstWhere_split {α : Type} (p : α → Bool) (f : α → α)
    (pre post : List α) (s : α) (hs : p s = true)
    (hpre : ∀ x ∈ pre, p x = false) :
    PlaywrightTestListener.updateFirstWhere p f (pre ++ s :: post)
      = pre ++ f s :: post := by
  induction pre with
  | nil => simp [PlaywrightTestListener.updateFirstWhere, hs]
  | cons a pre ih =>
    have ha : p a = false := hpre a (by simp)
    simp only [List.cons_append, PlaywrightTestListener.updateFirstWhere, ha,
      Bool.false_eq_true, if_false, List.cons.injEq, true_and]
    exact ih (fun x hx => hpre x (by simp [hx]))

/-- An open step titled "A" begun at time 0. -/
def c1StepA : TestStepInfo :=
  { title := "A", startTime := 0, endTime := none, duration := none,
    status := .passed, error := none }

/-- A second open step with the same title "A", begun later, at time 10. -/
def c1StepB : TestStepInfo :=
  { title := "A", startTime := 10, endTime := none, duration := none,
    status := .passed, error := none }

/-- A test context holding the two interleaved open steps of the same title. -/
def c1TwoOpenSteps : TestExecutionContext :=
  { testName := "T", suiteName := "S", startTime := 0, endTime := none,
    duration := none, status := .passed, error := none, screenshots := none,
    videos := none, steps := [c1StepA, c1StepB] }

/-- A listener state holding that test context under its composite key. -/
def c1State : ListenerState :=
  { ListenerState.initial with executionContext := [("S::T", c1TwoOpenSteps)] }

/-- Counterexample to C1 as stated: with two open steps titled "A" (begun at
times 0 and 10), the stepEnd at time 20 sets the end time of the EARLIEST
begun open step (index 0) and leaves the most recently begun one (index 1)
without an end time — Array.prototype.find scans from the front, so the
matching is first-begun (FIFO), not most-recently-begun (LIFO). -/
theorem c1_counterexample :
    (mapGet "S::T" (PlaywrightTestListener.onStepEnd 20 c1State ⟨"T", "S"⟩
        ⟨"A", none⟩).executionContext).map
      (fun c => c.steps.map TestStepInfo.endTime) = some [some 20, none] := by
  decide

/-- C1 amended: for a stepEnd whose test context exists, when the step list
splits as pre, then s, then post, with s open and titled like the ended step
and with no open step of that title in pre, the step whose end time,
duration, status and error are set is s — the earliest begun open step with
that title (the first-match order of Array.prototype.find), not the most
recently begun one. -/
theorem stepEnd_closes_first_open_match (now : Nat) (st : ListenerState)
    (test : TestCase) (step : TestStep) (ctx : TestExecutionContext)
    (pre post : List TestStepInfo) (s : TestStepInfo)
    (hget : mapGet (PlaywrightTestListener.getTestId test) st.executionContext
            = some ctx)
    (hsteps : ctx.steps = pre ++ s :: post)
    (hs : PlaywrightTestListener.openMatching step.title s = true)
    (hpre : ∀ x ∈ pre, PlaywrightTestListener.openMatching step.title x = false) :
    ∃ ctx', mapGet (PlaywrightTestListener.getTestId test)
        (PlaywrightTestListener.onStepEnd now st test step).executionContext
        = some ctx' ∧
      ctx'.steps
        = pre ++ PlaywrightTestListener.closeStepInfo now step.error s :: post ∧
      (PlaywrightTestListener.closeStepInfo now step.error s).endTime = some now ∧
      (PlaywrightTestListener.closeStepInfo now step.error s).duration
        = some ((now : Int) - (s.startTime : Int)) ∧
      (PlaywrightTestListener.closeStepInfo now step.error s).status
        = (if step.error.isSome then StepStatus.failed else StepStatus.passed) ∧
      (PlaywrightTestListener.closeStepInfo now step.error s).error
        = step.error.or s.error := by
  have hfind : ctx.steps.find? (PlaywrightTestListener.openMatching step.title)
      = some s := by
    rw [hsteps]
    exact find?_split _ _ _ _ hs hpre
  have hmain : mapGet (PlaywrightTestListener.getTestId test)
      (PlaywrightTestListener.onStepEnd now st test step).executionContext
      = some { ctx with steps :=
          pre ++ PlaywrightTestListener.closeStepInfo now step.error s :: post } := by
    unfold PlaywrightTestListener.onStepEnd
    simp only [hget, hfind, PlaywrightTestListener.emit]
    rw [mapGet_mapModify_self, hget]
    simp only [Option.map_some']
    rw [hsteps, updateFirstWhere_split _ _ _ _ _ hs hpre]
  refine ⟨_, hmain, rfl, ?_, ?_, ?_, ?_⟩ <;>
    cases he : step.error <;>
      simp [PlaywrightTestListener.closeStepInfo, he]

/-- Witness for stepEnd_closes_first_open_match at the two-open-step state:
the earliest begun open step is the one closed. -/
theorem stepEnd_closes_first_open_match_witness :
    ∃ ctx', mapGet "S::T"
        (PlaywrightTestListener.onStepEnd 20 c1State ⟨"T", "S"⟩
          ⟨"A", none⟩).executionContext = some ctx' ∧
      ctx'.steps
        = [] ++ PlaywrightTestListener.closeStepInfo 20 none c1StepA :: [c1StepB] ∧
      (PlaywrightTestListener.closeStepInfo 20 none c1StepA).endTime = some 20 ∧
      (PlaywrightTestListener.closeStepInfo 20 none c1StepA).duration
        = some ((20 : Int) - ((c1StepA.startTime : Nat) : Int)) ∧
      (PlaywrightTestListener.closeStepInfo 20 none c1StepA).status
        = (if (none : Option String).isSome then StepStatus.failed
           else StepStatus.passed) ∧
      (PlaywrightTestListener.closeStepInfo 20 none c1StepA).error
        = (none : Option String).or c1StepA.error :=
  stepEnd_closes_first_open_match 20 c1State ⟨"T", "S"⟩ ⟨"A", none⟩
    c1TwoOpenSteps [] [c1StepB] c1StepA rfl rfl (by decide) (by simp)

/-- onTestSuiteStart creates or overwrites exactly one suite key: the suite
key of its title; every other key is untouched. -/
theorem onTestSuiteStart_other_key (now : Nat) (title : String) (st : ListenerState)
    (k : String) (h : PlaywrightTestListener.suiteKeyOf title ≠ k) :
    mapGet k (PlaywrightTestListener.onTestSuiteStart now title st).suiteContext
      = mapGet k st.suiteContext := by
  unfold PlaywrightTestListener.onTestSuiteStart
  simp only [PlaywrightTestListener.emit]
  exact mapGet_mapSet_ne _ _ _ _ h

mutual

/-- Suite initialization over a tree without a suite literally titled
"Root Suite" never creates the "Root Suite" key. -/
theorem initializeSuites_no_root_key (now : Nat) (st : ListenerState) :
    ∀ t : SuiteTree, "Root Suite" ∉ SuiteTree.titles t →
      mapGet "Root Suite" st.suiteContext = none →
      mapGet "Root Suite"
        (PlaywrightTestListener.initializeSuites now st t).suiteContext = none
  | .mk title suites, ht, hst => by
    rw [PlaywrightTestListener.initializeSuites]
    apply initializeSuitesList_no_root_key now suites
    · intro hmem
      exact ht (by rw [SuiteTree.titles]; exact List.mem_cons_of_mem _ hmem)
    · by_cases h0 : title ≠ ""
      · rw [if_pos h0]
        have htitle : PlaywrightTestListener.suiteKeyOf title ≠ "Root Suite" := by
          rw [PlaywrightTestListener.suiteKeyOf, if_neg (by simpa using h0)]
          intro hc
          exact ht (by rw [SuiteTree.titles, hc]; exact List.mem_cons_self _ _)
        rw [onTestSuiteStart_other_key now title st _ htitle]
        exact hst
      · rw [if_neg h0]
        exact hst

/-- The list form of initializeSuites_no_root_key. -/
theorem initializeSuitesList_no_root_key (now : Nat) :
    ∀ (ts : List SuiteTree) (st : ListenerState),
      "Root Suite" ∉ SuiteTree.titlesList ts →
      mapGet "Root Suite" st.suiteContext = none →
      mapGet "Root Suite"
        (PlaywrightTestListener.initializeSuitesList now st ts).suiteContext = none
  | [], _, _, hst => hst
  | t :: ts, st, hts, hst => by
    rw [PlaywrightTestListener.initializeSuitesList]
    apply initializeSuitesList_no_root_key now ts
    · intro h
      exact hts (by rw [SuiteTree.titlesList]; exact List.mem_append_right _ h)
    · exact initializeSuites_no_root_key now st t
        (fun h => hts (by rw [SuiteTree.titlesList]; exact List.mem_append_left _ h))
        hst

end

/-- C10 amended: provided no suite in the run is literally titled
"Root Suite", a test attached directly to the root suite (empty parent
title) is counted nowhere: suite initialization creates contexts only for
non-empty titles (so the "Root Suite" fallback key is absent), test-finish
accounting looks that absent key up and silently skips the increment, and
the run-end grand totals, computed by summing the suite contexts, are
unchanged. -/
theorem root_attached_tests_uncounted :
    (∀ (now : Nat) (st : ListenerState) (t : SuiteTree),
        "Root Suite" ∉ SuiteTree.titles t →
        mapGet "Root Suite" st.suiteContext = none →
        mapGet "Root Suite"
          (PlaywrightTestListener.initializeSuites now st t).suiteContext = none) ∧
    (∀ (now : Nat) (st : ListenerState) (test : TestCase) (result : TestResult),
        test.parentTitle = "" →
        mapGet "Root Suite" st.suiteContext = none →
        (PlaywrightTestListener.onTestEnd now st test result).suiteContext
            = st.suiteContext ∧
          PlaywrightTestListener.computeGrandTotals
              (PlaywrightTestListener.onTestEnd now st test result)
            = PlaywrightTestListener.computeGrandTotals st) := by
  constructor
  · exact fun now st t ht hst => initializeSuites_no_root_key now st t ht hst
  · intro now st test result hp hroot
    have hsc := onTestEnd_suiteContext now st test result
    rw [hp] at hsc
    rw [show PlaywrightTestListener.suiteKeyOf "" = "Root Suite" from rfl] at hsc
    rw [mapModify_of_get_none _ _ _ hroot] at hsc
    refine ⟨hsc, ?_⟩
    unfold PlaywrightTestListener.computeGrandTotals
    rw [hsc]

/-- The malformed tree of the C10 counterexample: a child suite literally
titled "Root Suite". -/
def c10Tree : SuiteTree := .mk "" [.mk "Root Suite" []]

/-- The listener state after initializing that tree. -/
def c10Init : ListenerState :=
  PlaywrightTestListener.initializeSuites 0 ListenerState.initial c10Tree

/-- The state after a root-attached test (empty parent title) begins and
ends in that run. -/
def c10After : ListenerState :=
  PlaywrightTestListener.onTestEnd 2
    (PlaywrightTestListener.onTestBegin 1 c10Init ⟨"T", ""⟩)
    ⟨"T", ""⟩ ⟨.passed, none, []⟩

/-- Counterexample to C10 as stated: when a suite is literally titled
"Root Suite", the fallback key IS created by suite initialization, so ending
a test attached directly to the root increments that suite's counters and
the test appears in the grand totals (0 tests before, 1 after). -/
theorem c10_counterexample :
    (mapGet "Root Suite" c10After.suiteContext).map SuiteExecutionContext.total
        = some 1 ∧
      (PlaywrightTestListener.computeGrandTotals c10After).tests = 1 ∧
      (PlaywrightTestListener.computeGrandTotals c10Init).tests = 0 := by
  decide

/-- Witness for root_attached_tests_uncounted over a well-formed tree and a
root-attached testEnd. -/
theorem root_attached_tests_uncounted_witness :
    mapGet "Root Suite"
        (PlaywrightTestListener.initializeSuites 0 ListenerState.initial
          (.mk "" [.mk "S" []])).suiteContext = none ∧
      (PlaywrightTestListener.onTestEnd 1
          (PlaywrightTestListener.initializeSuites 0 ListenerState.initial
            (.mk "" [.mk "S" []]))
          ⟨"T", ""⟩ ⟨.passed, none, []⟩).suiteContext
        = (PlaywrightTestListener.initializeSuites 0 ListenerState.initial
            (.mk "" [.mk "S" []])).suiteContext :=
  ⟨root_attached_tests_uncounted.1 0 ListenerState.initial (.mk "" [.mk "S" []])
      (by decide) (by decide),
    (root_attached_tests_uncounted.2 1
      (PlaywrightTestListener.initializeSuites 0 ListenerState.initial
        (.mk "" [.mk "S" []]))
      ⟨"T", ""⟩ ⟨.passed, none, []⟩ rfl (by decide)).1⟩

/-- Two strings whose first characters differ are different. -/
theorem str_ne_of_head (s t : String) (c d : Char) (hs : s.data.head? = some c)
    (ht : t.data.head? = some d) (hcd : c ≠ d) : s ≠ t := by
  intro he
  subst he
  rw [hs] at ht
  exact hcd (Option.some.inj ht)

/-- The first character of an append whose left part is non-empty. -/
theorem str_head_append (a b : String) (c : Char) (h : a.data.head? = some c) :
    (a ++ b).data.head? = some c := by
  rw [String.data_append]
  cases hd : a.data with
  | nil => rw [hd] at h; cases h
  | cons x xs =>
    rw [hd] at h
    simp only [List.head?_cons, Option.some.injEq] at h
    simp [List.cons_append, h]

/-- A string with a first character is not the empty string. -/
theorem str_ne_empty_of_head (s : String) (c : Char) (h : s.data.head? = some c) :
    s ≠ "" := by
  intro he
  rw [he] at h
  cases h

/-- The warning line of a suite summary block starts with the cross mark. -/
theorem warnLine_head (n : Nat) :
    ("❌ Suite had " ++ toString n ++ " failed test(s)").data.head? = some '❌' := by
  apply str_head_append
  apply str_head_append
  rfl

/-- C8: the end-of-run suite summary renders exactly one block per suite
whose total is positive, in map order, omitting every suite whose total is
zero; and a block contains the failed-count warning line if and only if that
suite's failed count is positive. -/
theorem suite_summary_omits_empty_and_warns (now : Nat) (st : ListenerState)
    (hne : st.suiteContext ≠ [])
    (hsome : st.suiteContext.filter (fun p => p.2.total > 0) ≠ []) :
    (PlaywrightTestListener.onTestSuiteFinish now st).trace
        = st.trace ++ ["📋 Test Suite Summary:", PlaywrightTestListener.dashLine]
          ++ ((st.suiteContext.filter (fun p => p.2.total > 0)).map
              (fun p => PlaywrightTestListener.suiteSummaryBlock now p.1 p.2)).flatten ∧
    (∀ (name : String) (ctx : SuiteExecutionContext),
        ("❌ Suite had " ++ toString ctx.failed ++ " failed test(s)")
            ∈ PlaywrightTestListener.suiteSummaryBlock now name ctx
          ↔ ctx.failed > 0) := by
  constructor
  · unfold PlaywrightTestListener.onTestSuiteFinish
    rw [if_neg (by simpa [List.length_eq_zero] using hne),
      if_neg (by simpa [List.length_eq_zero] using hsome)]
    simp [PlaywrightTestListener.emit, List.append_assoc]
  · intro name ctx
    constructor
    · intro hmem
      by_contra h0
      have hz : ctx.failed = 0 := by omega
      rw [PlaywrightTestListener.suiteSummaryBlock] at hmem
      rw [if_neg (by omega)] at hmem
      simp only [List.append_nil, List.mem_append, List.mem_cons,
        List.not_mem_nil, or_false, List.mem_singleton] at hmem
      rcases hmem with (h | h) | h
      · exact str_ne_of_head _ _ '❌' '📋' (warnLine_head ctx.failed)
          (str_head_append "📋 Suite completed: " name '📋' rfl) (by decide) h
      · exact str_ne_of_head _ _ '❌' '📊' (warnLine_head ctx.failed)
          (by repeat first | rfl | apply str_head_append) (by decide) h
      · exact str_ne_empty_of_head _ '❌' (warnLine_head ctx.failed) h
    · intro hpos
      rw [PlaywrightTestListener.suiteSummaryBlock, if_pos hpos]
      simp

/-- A suite context with one passed test. -/
def c8CtxA : SuiteExecutionContext :=
  { suiteName := "A", startTime := 0, endTime := none, duration := none,
    tests := [], passed := 1, failed := 0, skipped := 0, total := 1 }

/-- A suite context with no recorded tests. -/
def c8CtxB : SuiteExecutionContext :=
  { suiteName := "B", startTime := 0, endTime := none, duration := none,
    tests := [], passed := 0, failed := 0, skipped := 0, total := 0 }

/-- A suite context with two failed tests among three. -/
def c8CtxC : SuiteExecutionContext :=
  { suiteName := "C", startTime := 0, endTime := none, duration := none,
    tests := [], passed := 1, failed := 2, skipped := 0, total := 3 }

/-- A listener state with the three suites above. -/
def c8State : ListenerState :=
  { ListenerState.initial with
      suiteContext := [("A", c8CtxA), ("B", c8CtxB), ("C", c8CtxC)] }

/-- Witness for suite_summary_omits_empty_and_warns at the three-suite
state: suite B (zero tests) contributes no block, and the warning line of
suite C's block is there exactly because its failed count is positive. -/
theorem suite_summary_witness :
    (PlaywrightTestListener.onTestSuiteFinish 7 c8State).trace
        = c8State.trace ++ ["📋 Test Suite Summary:", PlaywrightTestListener.dashLine]
          ++ ((c8State.suiteContext.filter (fun p => p.2.total > 0)).map
              (fun p => PlaywrightTestListener.suiteSummaryBlock 7 p.1 p.2)).flatten ∧
      (("❌ Suite had " ++ toString c8CtxC.failed ++ " failed test(s)")
          ∈ PlaywrightTestListener.suiteSummaryBlock 7 "C" c8CtxC
        ↔ c8CtxC.failed > 0) :=
  ⟨(suite_summary_omits_empty_and_warns 7 c8State (by decide) (by decide)).1,
    (suite_summary_omits_empty_and_warns 7 c8State (by decide) (by decide)).2 "C" c8CtxC⟩

/-- writeToFile may append to the file sink but never touches the console. -/
theorem writeToFile_console (st : LoggerState) (e : LogEntry) :
    (Logger.writeToFile st e).console = st.console := by
  unfold Logger.writeToFile
  split <;> rfl

/-- writeToFile never touches the buffer. -/
theorem writeToFile_buffer (st : LoggerState) (e : LogEntry) :
    (Logger.writeToFile st e).buffer = st.buffer := by
  unfold Logger.writeToFile
  split <;> rfl

/-- writeToFile never touches the configuration. -/
theorem writeToFile_config (st : LoggerState) (e : LogEntry) :
    (Logger.writeToFile st e).config = st.config := by
  unfold Logger.writeToFile
  split <;> rfl

/-- The entry Logger.log constructs once the level passes the filter. -/
def logEntryOf (now : Nat) (ctx : String) (level : LogLevel) (msg : String)
    (md : Option String) (st : LoggerState) : LogEntry :=
  { timestamp := now, level := level,
    message := Logger.normalizeMessageS st.config.maxLineLength msg,
    context := ctx, metadata := md }

/-- C3: a log call strictly below the configured minimum level is a complete
no-op (the state, hence buffer, console and file sink, is unchanged), while
a call at or above the minimum writes exactly one formatted line to the
console and pushes exactly one entry, carrying that level and the normalized
message, onto the buffer; debug, info, warn and error delegate to the core
log primitive at their fixed levels. -/
theorem log_level_filter (now : Nat) (ctx : String) (level : LogLevel) (msg : String)
    (md : Option String) (st : LoggerState) :
    (level.toNat < st.config.level.toNat → Logger.log now ctx level msg md st = st) ∧
    (st.config.level.toNat ≤ level.toNat →
      (Logger.log now ctx level msg md st).console
          = st.console
            ++ [Logger.formatMessage st.config (logEntryOf now ctx level msg md st)] ∧
        (Logger.log now ctx level msg md st).buffer
          = Logger.ringPush st.buffer (logEntryOf now ctx level msg md st) ∧
        (logEntryOf now ctx level msg md st).level = level ∧
        (logEntryOf now ctx level msg md st).message
          = Logger.normalizeMessageS st.config.maxLineLength msg) ∧
    Logger.debug now ctx msg md st = Logger.log now ctx .debug msg md st ∧
    Logger.info now ctx msg md st = Logger.log now ctx .info msg md st ∧
    Logger.warn now ctx msg md st = Logger.log now ctx .warn msg md st ∧
    Logger.error now ctx msg md st = Logger.log now ctx .error msg md st := by
  refine ⟨?_, ?_, rfl, rfl, rfl, rfl⟩
  · intro h
    unfold Logger.log
    rw [if_pos h]
  · intro h
    unfold Logger.log
    rw [if_neg (by omega)]
    refine ⟨?_, ?_, rfl, rfl⟩
    · simp only [writeToFile_console]
      rfl
    · simp only [writeToFile_buffer]
      rfl

/-- A logger state configured at minimum level WARN, as in the spec
scenario. -/
def logWarnState : LoggerState :=
  { LoggerState.initial with config := { LoggerConfig.initial with level := .warn } }

/-- Witness for log_level_filter: with minimum WARN, an info call is a
no-op and a warn call appends its entry. -/
theorem log_level_filter_witness :
    Logger.log 0 "APP" .info "x" none logWarnState = logWarnState ∧
      (Logger.log 1 "APP" .warn "y" none logWarnState).console
        = logWarnState.console
          ++ [Logger.formatMessage logWarnState.config
                (logEntryOf 1 "APP" .warn "y" none logWarnState)] ∧
      (Logger.log 1 "APP" .warn "y" none logWarnState).buffer
        = Logger.ringPush logWarnState.buffer
            (logEntryOf 1 "APP" .warn "y" none logWarnState) ∧
      (logEntryOf 1 "APP" .warn "y" none logWarnState).level = .warn ∧
      (logEntryOf 1 "APP" .warn "y" none logWarnState).message
        = Logger.normalizeMessageS logWarnState.config.maxLineLength "y" :=
  ⟨(log_level_filter 0 "APP" .info "x" none logWarnState).1 (by decide),
    (log_level_filter 1 "APP" .warn "y" none logWarnState).2.1 (by decide)⟩

/-- C9 amended: for every positive count, getRecentLogs returns exactly the
last min(count, buffer length) buffered entries in order; for count = 0 it
returns the WHOLE buffer, not the empty list, because slice(-0) is
slice(0).  The model's read returns a value and cannot mutate the buffer. -/
theorem getRecentLogs_returns_suffix (count : Nat) (st : LoggerState) :
    (0 < count →
      Logger.getRecentLogs count st = st.buffer.drop (st.buffer.length - count) ∧
      (Logger.getRecentLogs count st).length = min count st.buffer.length) ∧
    Logger.getRecentLogs 0 st = st.buffer := by
  constructor
  · intro hc
    unfold Logger.getRecentLogs Logger.jsSliceNeg
    rw [if_neg (by omega)]
    refine ⟨rfl, ?_⟩
    rw [List.length_drop]
    omega
  · unfold Logger.getRecentLogs Logger.jsSliceNeg
    rw [if_pos rfl]

/-- A one-entry buffer for the C9 counterexample. -/
def c9Entry : LogEntry :=
  { timestamp := 5, level := .info, message := "m", context := "APP", metadata := none }

/-- A logger state whose buffer holds exactly that entry. -/
def c9State : LoggerState :=
  { LoggerState.initial with buffer := [c9Entry] }

/-- Counterexample to C9 as stated: at count = 0 the claim demands the last
min(0, 1) = 0 entries, the empty list, but getRecentLogs returns the whole
one-entry buffer, because Array.prototype.slice(-0) is slice(0). -/
theorem c9_counterexample :
    Logger.getRecentLogs 0 c9State = [c9Entry] ∧ [c9Entry] ≠ ([] : List LogEntry) := by
  decide

/-- Witness for getRecentLogs_returns_suffix at count two over the one-entry
buffer. -/
theorem getRecentLogs_witness :
    (Logger.getRecentLogs 2 c9State
        = c9State.buffer.drop (c9State.buffer.length - 2) ∧
      (Logger.getRecentLogs 2 c9State).length = min 2 c9State.buffer.length) ∧
    Logger.getRecentLogs 0 c9State = c9State.buffer :=
  ⟨(getRecentLogs_returns_suffix 2 c9State).1 (by decide),
    (getRecentLogs_returns_suffix 2 c9State).2⟩

/-- A ring push on a buffer within capacity stays within capacity. -/
theorem ringPush_length_le (buf : List LogEntry) (e : LogEntry)
    (h : buf.length ≤ 1000) : (Logger.ringPush buf e).length ≤ 1000 := by
  unfold Logger.ringPush
  by_cases h1 : (buf ++ [e]).length > 1000
  · rw [if_pos h1]
    simp only [List.length_tail, List.length_append, List.length_singleton] at h1 ⊢
    omega
  · rw [if_neg h1]
    omega

/-- The length of a ring push on a buffer within capacity. -/
theorem ringPush_length (buf : List LogEntry) (e : LogEntry)
    (h : buf.length ≤ 1000) :
    (Logger.ringPush buf e).length = min (buf.length + 1) 1000 := by
  unfold Logger.ringPush
  by_cases h1 : (buf ++ [e]).length > 1000
  · rw [if_pos h1]
    simp only [List.length_tail, List.length_append, List.length_singleton] at h1 ⊢
    omega
  · rw [if_neg h1]
    simp only [List.length_append, List.length_singleton] at h1 ⊢
    omega

/-- A ring push on a buffer within capacity as a drop of the appended list. -/
theorem ringPush_eq_drop (buf : List LogEntry) (e : LogEntry)
    (h : buf.length ≤ 1000) :
    Logger.ringPush buf e = (buf ++ [e]).drop (buf.length + 1 - 1000) := by
  unfold Logger.ringPush
  rcases Nat.lt_or_ge 1000 (buf ++ [e]).length with h1 | h1
  · have h1' : buf.length + 1 - 1000 = 1 := by
      simp only [List.length_append, List.length_singleton] at h1
      omega
    rw [if_pos h1, h1', List.drop_one]
  · rw [if_neg (by omega)]
    simp only [List.length_append, List.length_singleton] at h1
    rw [show buf.length + 1 - 1000 = 0 by omega, List.drop_zero]

/-- Folding ring pushes over a buffer within capacity keeps exactly the last
1000 of the appended entries. -/
theorem foldl_ringPush_eq_drop (l : List LogEntry) :
    ∀ acc : List LogEntry, acc.length ≤ 1000 →
      l.foldl Logger.ringPush acc = (acc ++ l).drop (acc.length + l.length - 1000) := by
  induction l with
  | nil =>
    intro acc h
    simp only [List.foldl_nil, List.append_nil, List.length_nil, Nat.add_zero]
    rw [show acc.length - 1000 = 0 by omega, List.drop_zero]
  | cons e l ih =>
    intro acc h
    rw [List.foldl_cons,
      ih (Logger.ringPush acc e) (ringPush_length_le acc e h),
      ringPush_length acc e h, ringPush_eq_drop acc e h,
      ← List.drop_append_of_le_length
        (by simp only [List.length_append, List.length_singleton]; omega),
      List.drop_drop, List.append_assoc, List.singleton_append]
    rw [show acc.length + 1 - 1000 + ((acc.length + 1) ⊓ 1000 + l.length - 1000)
        = acc.length + (e :: l).length - 1000 by
      simp only [List.length_cons]
      omega]

/-- Logger.log keeps a buffer within capacity within capacity. -/
theorem log_buffer_length_le (now : Nat) (ctx : String) (level : LogLevel)
    (msg : String) (md : Option String) (st : LoggerState)
    (h : st.buffer.length ≤ 1000) :
    (Logger.log now ctx level msg md st).buffer.length ≤ 1000 := by
  unfold Logger.log
  split
  · exact h
  · simp only [writeToFile_buffer]
    exact ringPush_length_le _ _ h

/-- The entry of the i-th log call of the C4 ring scenario. -/
def c4Entry (i : Nat) : LogEntry :=
  { timestamp := i, level := .info, message := "m", context := "APP", metadata := none }

/-- One log call of the C4 ring scenario, at time i. -/
def c4Step (st : LoggerState) (i : Nat) : LoggerState :=
  Logger.log i "APP" .info "m" none st

/-- The logger state after 1001 log calls on the fresh logger. -/
def c4Final : LoggerState :=
  (List.range 1001).foldl c4Step LoggerState.initial

/-- One C4 step pushes exactly its entry and keeps the configuration. -/
theorem c4Step_buffer (st : LoggerState) (i : Nat)
    (hc : st.config = LoggerConfig.initial) :
    (c4Step st i).buffer = Logger.ringPush st.buffer (c4Entry i)
      ∧ (c4Step st i).config = st.config := by
  unfold c4Step Logger.log
  rw [hc]
  rw [if_neg (by decide)]
  constructor
  · simp only [writeToFile_buffer]
    have hm : Logger.normalizeMessageS LoggerConfig.initial.maxLineLength "m" = "m" := by
      decide
    simp [hm, c4Entry]
  · simp only [writeToFile_config]

/-- The buffer after folding C4 steps is the fold of the ring pushes of the
corresponding entries. -/
theorem c4_fold_buffer :
    ∀ (l : List Nat) (st : LoggerState), st.config = LoggerConfig.initial →
      (l.foldl c4Step st).buffer = (l.map c4Entry).foldl Logger.ringPush st.buffer
  | [], _, _ => rfl
  | i :: l, st, h => by
    rw [List.foldl_cons, List.map_cons, List.foldl_cons]
    have hb := c4Step_buffer st i h
    rw [c4_fold_buffer l (c4Step st i) (by rw [hb.2, h]), hb.1]

/-- C4: the log buffer is a 1000-entry FIFO ring.  Every log call on a
buffer within capacity leaves it within capacity; and after 1001 log calls
on the fresh logger the buffer holds exactly the entries of calls 2..1001 in
insertion order: its length is 1000 and the first call's entry is absent. -/
theorem log_buffer_ring :
    (∀ (now : Nat) (ctx : String) (level : LogLevel) (msg : String)
        (md : Option String) (st : LoggerState), st.buffer.length ≤ 1000 →
        (Logger.log now ctx level msg md st).buffer.length ≤ 1000) ∧
    c4Final.buffer = ((List.range 1001).map c4Entry).drop 1 ∧
    c4Final.buffer.length = 1000 ∧
    c4Entry 0 ∉ c4Final.buffer := by
  have hbuf : c4Final.buffer = ((List.range 1001).map c4Entry).drop 1 := by
    unfold c4Final
    rw [c4_fold_buffer _ _ rfl]
    rw [show LoggerState.initial.buffer = [] from rfl]
    rw [foldl_ringPush_eq_drop _ _ (by simp)]
    simp
  refine ⟨fun now ctx level msg md st h => log_buffer_length_le now ctx level msg md st h,
    hbuf, ?_, ?_⟩
  · rw [hbuf]
    simp
  · rw [hbuf]
    rw [show (1001 : Nat) = 1000 + 1 from rfl, List.range_succ_eq_map]
    simp only [List.map_cons, List.drop_succ_cons, List.drop_zero, List.map_map]
    intro hmem
    rw [List.mem_map] at hmem
    obtain ⟨j, _, he⟩ := hmem
    have := congrArg LogEntry.timestamp he
    simp [c4Entry, Function.comp] at this

/-- Witness for the capacity-preservation half of log_buffer_ring at the
fresh logger. -/
theorem log_buffer_ring_witness :
    (Logger.log 0 "APP" .info "m" none LoggerState.initial).buffer.length ≤ 1000 :=
  log_buffer_ring.1 0 "APP" .info "m" none LoggerState.initial (by decide)

/-- Every character the whitespace collapse emits for a whitespace run is a
plain space. -/
theorem collapse_wsOnly : ∀ (l : List Char) (b : Bool), WsOnlySpace (collapseWsAux b l) := by
  intro l
  induction l with
  | nil =>
    intro b c hc
    simp [collapseWsAux] at hc
  | cons c rest ih =>
    intro b
    by_cases hw : jsWs c
    · cases b
      · intro x hx hxw
        simp only [collapseWsAux, hw, if_true, Bool.false_eq_true, if_false] at hx
        rcases List.mem_cons.mp hx with h | h
        · exact h
        · exact ih true x h hxw
      · intro x hx hxw
        simp only [collapseWsAux, hw, if_true] at hx
        exact ih true x hx hxw
    · intro x hx hxw
      simp only [collapseWsAux, hw, Bool.false_eq_true, if_false] at hx
      rcases List.mem_cons.mp hx with h | h
      · subst h
        exact absurd hxw (by simp [hw])
      · exact ih false x h hxw

/-- When the collapse starts inside a whitespace run, the first character it
emits is not whitespace. -/
theorem collapse_head_true :
    ∀ (l : List Char) (c : Char) (cs : List Char),
      collapseWsAux true l = c :: cs → jsWs c = false := by
  intro l
  induction l with
  | nil =>
    intro c cs h
    simp [collapseWsAux] at h
  | cons d rest ih =>
    intro c cs h
    by_cases hw : jsWs d
    · simp only [collapseWsAux, hw, if_true] at h
      exact ih c cs h
    · simp only [collapseWsAux, hw, Bool.false_eq_true, if_false,
        List.cons.injEq] at h
      rw [← h.1]
      simp [hw]

/-- The collapse emits no two adjacent whitespace characters. -/
theorem collapse_noAdj : ∀ (l : List Char) (b : Bool), NoAdjWs (collapseWsAux b l) := by
  intro l
  induction l with
  | nil =>
    intro b
    simp [collapseWsAux, NoAdjWs]
  | cons c rest ih =>
    intro b
    by_cases hw : jsWs c
    · cases b
      · have he : collapseWsAux false (c :: rest) = ' ' :: collapseWsAux true rest := by
          simp [collapseWsAux, hw]
        rw [he, NoAdjWs, List.chain'_cons']
        refine ⟨?_, ih true⟩
        intro y hy
        cases hX : collapseWsAux true rest with
        | nil => rw [hX] at hy; cases hy
        | cons z zs =>
          rw [hX] at hy
          simp only [List.head?_cons, Option.mem_def, Option.some.injEq] at hy
          subst hy
          intro hcontra
          exact absurd hcontra.2 (by simp [collapse_head_true rest z zs hX])
      · have he : collapseWsAux true (c :: rest) = collapseWsAux true rest := by
          simp [collapseWsAux, hw]
        rw [he]
        exact ih true
    · have he : collapseWsAux b (c :: rest) = c :: collapseWsAux false rest := by
        simp [collapseWsAux, hw]
      rw [he, NoAdjWs, List.chain'_cons']
      refine ⟨?_, ih false⟩
      intro y _ hcontra
      exact absurd hcontra.1 (by simp [hw])

/-- The one-step unfolding of trimRight on a cons cell. -/
theorem trimRight_cons (c : Char) (rest : List Char) :
    trimRight (c :: rest)
      = if trimRight rest = [] ∧ jsWs c = true then [] else c :: trimRight rest := rfl

/-- trimRight keeps a prefix of its input. -/
theorem trimRight_isPrefix : ∀ l : List Char, trimRight l <+: l := by
  intro l
  induction l with
  | nil => exact List.nil_prefix
  | cons c rest ih =>
    rw [trimRight_cons]
    by_cases hcond : trimRight rest = [] ∧ jsWs c = true
    · rw [if_pos hcond]
      exact List.nil_prefix
    · rw [if_neg hcond]
      obtain ⟨t, ht⟩ := ih
      exact ⟨t, by rw [List.cons_append, ht]⟩

/-- Whitespace-only-space survives passing to any sublist. -/
theorem wsOnly_sublist (l l' : List Char) (h : List.Sublist l' l)
    (hw : WsOnlySpace l) : WsOnlySpace l' :=
  fun c hc hcw => hw c (h.mem hc) hcw

/-- The head of a non-empty prefix is the head of the whole list. -/
theorem head?_of_isPrefix (l l' : List Char) (c : Char) (h : l' <+: l)
    (hc : l'.head? = some c) : l.head? = some c := by
  obtain ⟨t, rfl⟩ := h
  cases l' with
  | nil => cases hc
  | cons x xs =>
    simp only [List.head?_cons, Option.some.injEq] at hc
    simp [hc]

/-- The head surviving a dropWhile of whitespace is not whitespace. -/
theorem head?_dropWhile_not_ws :
    ∀ (l : List Char) (c : Char), (l.dropWhile jsWs).head? = some c → jsWs c = false := by
  intro l
  induction l with
  | nil =>
    intro c hc
    cases hc
  | cons d rest ih =>
    intro c hc
    by_cases hw : jsWs d
    · rw [List.dropWhile_cons_of_pos hw] at hc
      exact ih c hc
    · rw [List.dropWhile_cons_of_neg hw] at hc
      simp only [List.head?_cons, Option.some.injEq] at hc
      rw [← hc]
      simp [hw]

/-- The last character surviving trimRight is not whitespace. -/
theorem trimRight_getLast_not_ws :
    ∀ (l : List Char) (c : Char), (trimRight l).getLast? = some c → jsWs c = false := by
  intro l
  induction l with
  | nil =>
    intro c hc
    cases hc
  | cons d rest ih =>
    intro c hc
    rw [trimRight_cons] at hc
    by_cases hcond : trimRight rest = [] ∧ jsWs d = true
    · rw [if_pos hcond] at hc
      cases hc
    · rw [if_neg hcond] at hc
      cases hr : trimRight rest with
      | nil =>
        rw [hr] at hc
        simp only [List.getLast?_singleton, Option.some.injEq] at hc
        rw [← hc]
        by_cases hwd : jsWs d = true
        · exact absurd ⟨hr, hwd⟩ hcond
        · simpa using hwd
      | cons x xs =>
        rw [hr, List.getLast?_cons_cons] at hc
        exact ih c (by rw [hr]; exact hc)

/-- dropWhile is the identity when the head is already not whitespace. -/
theorem dropWhile_eq_self_of_head (l : List Char)
    (h : ∀ c, l.head? = some c → jsWs c = false) : l.dropWhile jsWs = l := by
  cases l with
  | nil => rfl
  | cons c rest =>
    exact List.dropWhile_cons_of_neg (by simp [h c rfl])

/-- trimRight is the identity when the last character is already not
whitespace. -/
theorem trimRight_eq_self_of_getLast :
    ∀ l : List Char, (∀ c, l.getLast? = some c → jsWs c = false) → trimRight l = l := by
  intro l
  induction l with
  | nil => intro _; rfl
  | cons d rest ih =>
    intro h
    cases hr : rest with
    | nil =>
      have hd : jsWs d = false := h d (by rw [hr]; rfl)
      subst hr
      rw [trimRight_cons]
      simp [hd, show trimRight [] = [] from rfl]
    | cons x xs =>
      have hrest : trimRight rest = rest := by
        apply ih
        intro c hc
        apply h c
        rw [hr, List.getLast?_cons_cons, ← hr]
        exact hc
      rw [trimRight_cons, ← hr, hrest, if_neg (by rw [hr]; simp)]

/-- The CR LF replace is the identity on lists without a carriage return. -/
theorem replaceCRLF_eq_self : ∀ l : List Char, '\r' ∉ l → replaceCRLF l = l := by
  intro l
  induction l with
  | nil => intro _; rfl
  | cons c rest ih =>
    intro h
    have hc : c ≠ '\r' := fun hcr => h (by rw [hcr]; exact List.mem_cons_self _ _)
    have hrest : '\r' ∉ rest := fun hm => h (List.mem_cons_of_mem _ hm)
    cases rest with
    | nil => rfl
    | cons d rest2 =>
      show replaceCRLF (c :: d :: rest2) = c :: d :: rest2
      rw [show replaceCRLF (c :: d :: rest2)
          = if c = '\r' ∧ d = '\n' then ' ' :: replaceCRLF rest2
            else c :: replaceCRLF (d :: rest2) from rfl]
      rw [if_neg (fun hand => hc hand.1)]
      rw [ih hrest]

/-- The single-character replace is the identity when the character is
absent. -/
theorem replaceAll_eq_self (a : Char) (l : List Char) (h : a ∉ l) :
    replaceAll a l = l := by
  unfold replaceAll
  induction l with
  | nil => rfl
  | cons c rest ih =>
    rw [List.map_cons]
    rw [if_neg (fun hca => h (by rw [← hca]; exact List.mem_cons_self _ _))]
    rw [ih (fun hm => h (List.mem_cons_of_mem _ hm))]

/-- The whitespace collapse is the identity on a list whose whitespace is
already single plain spaces with no adjacent pair (and, when resuming inside
a run, whose head is not whitespace). -/
theorem collapse_eq_self :
    ∀ (l : List Char) (b : Bool), WsOnlySpace l → NoAdjWs l →
      (b = true → ∀ c, l.head? = some c → jsWs c = false) →
      collapseWsAux b l = l := by
  intro l
  induction l with
  | nil => intro b _ _ _; rfl
  | cons c rest ih =>
    intro b hws hadj hb
    by_cases hw : jsWs c
    · cases b
      · have he : collapseWsAux false (c :: rest) = ' ' :: collapseWsAux true rest := by
          simp [collapseWsAux, hw]
        rw [he]
        have hsp : c = ' ' := hws c (List.mem_cons_self _ _) hw
        have hrest : collapseWsAux true rest = rest := by
          apply ih true (wsOnly_sublist _ _ (List.sublist_cons_self _ _) hws)
            ((List.chain'_cons'.mp hadj).2)
          intro _ d hd
          have := (List.chain'_cons'.mp hadj).1 d (by rw [hd]; rfl)
          by_cases hwd : jsWs d = true
          · exact absurd ⟨hw, hwd⟩ this
          · simpa using hwd
        rw [hrest, hsp]
      · exact absurd (hb rfl c rfl) (by simp [hw])
    · have he : collapseWsAux b (c :: rest) = c :: collapseWsAux false rest := by
        simp [collapseWsAux, hw]
      rw [he]
      rw [ih false (wsOnly_sublist _ _ (List.sublist_cons_self _ _) hws)
        ((List.chain'_cons'.mp hadj).2) (by intro hcontra; cases hcontra)]

/-- The normalized message is an infix of the whitespace collapse output. -/
theorem normalize_infix_collapse (maxLen : Nat) (s : List Char) :
    Logger.normalizeMessage maxLen s <:+:
      collapseWs (replaceAll '\t' (replaceAll '\n' (replaceAll '\r'
        (replaceCRLF (jsTrim s))))) := by
  unfold Logger.normalizeMessage jsTrim
  refine List.IsInfix.trans
    (List.IsPrefix.isInfix
      (List.IsPrefix.trans ( List.take_prefix _ _) (trimRight_isPrefix _))) ?_
  exact List.IsSuffix.isInfix (List.dropWhile_suffix _)

/-- Every whitespace character of a normalized message is a plain space; in
particular the output contains no carriage return, line feed or tab. -/
theorem normalize_wsOnly (maxLen : Nat) (s : List Char) :
    WsOnlySpace (Logger.normalizeMessage maxLen s) := by
  intro c hc hcw
  exact collapse_wsOnly _ false c ((normalize_infix_collapse maxLen s).mem hc) hcw

/-- A normalized message has no two adjacent whitespace characters. -/
theorem normalize_noAdj (maxLen : Nat) (s : List Char) :
    NoAdjWs (Logger.normalizeMessage maxLen s) :=
  List.Chain'.infix (collapse_noAdj _ false) (normalize_infix_collapse maxLen s)

/-- A normalized message is no longer than the configured maximum. -/
theorem normalize_length_le (maxLen : Nat) (s : List Char) :
    (Logger.normalizeMessage maxLen s).length ≤ maxLen := by
  unfold Logger.normalizeMessage
  rw [List.length_take]
  exact min_le_left _ _

/-- The first character of a normalized message is not whitespace. -/
theorem normalize_head_not_ws (maxLen : Nat) (s : List Char) (c : Char)
    (hc : (Logger.normalizeMessage maxLen s).head? = some c) : jsWs c = false := by
  unfold Logger.normalizeMessage jsTrim at hc
  have h1 := head?_of_isPrefix _ _ c ( List.take_prefix _ _) hc
  have h2 := head?_of_isPrefix _ _ c (trimRight_isPrefix _) h1
  exact head?_dropWhile_not_ws _ c h2

/-- The last character of a normalized message, when it is not the space a
truncation can leave behind, is not whitespace. -/
theorem normalize_getLast_not_ws (maxLen : Nat) (s : List Char)
    (h : (Logger.normalizeMessage maxLen s).getLast? ≠ some ' ') (c : Char)
    (hc : (Logger.normalizeMessage maxLen s).getLast? = some c) : jsWs c = false := by
  by_cases hw : jsWs c = true
  · have := normalize_wsOnly maxLen s c (List.mem_of_mem_getLast? hc) hw
    rw [this] at hc
    exact absurd hc h
  · simpa using hw

/-- C2 amended: normalizeMessage, at a fixed maximum line length, is
idempotent on every input whose normalized form does not end in a space;
truncation can leave exactly one trailing space, which a second application
removes (the counterexample), and this is the only failure of idempotence. -/
theorem normalizeMessage_idempotent_no_trailing_space (maxLen : Nat) (s : List Char)
    (h : (Logger.normalizeMessage maxLen s).getLast? ≠ some ' ') :
    Logger.normalizeMessage maxLen (Logger.normalizeMessage maxLen s)
      = Logger.normalizeMessage maxLen s := by
  have hws : WsOnlySpace (Logger.normalizeMessage maxLen s) := normalize_wsOnly maxLen s
  have hadj : NoAdjWs (Logger.normalizeMessage maxLen s) := normalize_noAdj maxLen s
  have hlen : (Logger.normalizeMessage maxLen s).length ≤ maxLen :=
    normalize_length_le maxLen s
  have hhead := normalize_head_not_ws maxLen s
  have hlast := normalize_getLast_not_ws maxLen s h
  have htrim : jsTrim (Logger.normalizeMessage maxLen s)
      = Logger.normalizeMessage maxLen s := by
    unfold jsTrim
    rw [dropWhile_eq_self_of_head _ hhead, trimRight_eq_self_of_getLast _ hlast]
  have hmem : ∀ a : Char, jsWs a = true → a ≠ ' ' →
      a ∉ Logger.normalizeMessage maxLen s := by
    intro a haw hane hm
    exact hane (hws a hm haw)
  have hnr : '\r' ∉ Logger.normalizeMessage maxLen s :=
    hmem '\r' (by decide) (by decide)
  have hnn : '\n' ∉ Logger.normalizeMessage maxLen s :=
    hmem '\n' (by decide) (by decide)
  have hnt : '\t' ∉ Logger.normalizeMessage maxLen s :=
    hmem '\t' (by decide) (by decide)
  conv_lhs => rw [Logger.normalizeMessage]
  rw [htrim, replaceCRLF_eq_self _ hnr, replaceAll_eq_self '\r' _ hnr,
    replaceAll_eq_self '\n' _ hnn, replaceAll_eq_self '\t' _ hnt]
  rw [show collapseWs (Logger.normalizeMessage maxLen s)
      = Logger.normalizeMessage maxLen s from
    collapse_eq_self _ false hws hadj (by intro hcontra; cases hcontra)]
  rw [htrim]
  exact List.take_of_length_le hlen

/-- Witness for normalizeMessage_idempotent_no_trailing_space on a short
message at the default maximum length. -/
theorem normalize_idempotent_witness :
    Logger.normalizeMessage 200
        (Logger.normalizeMessage 200 ("  a\r\n\tb  ".data))
      = Logger.normalizeMessage 200 ("  a\r\n\tb  ".data) :=
  normalizeMessage_idempotent_no_trailing_space 200 ("  a\r\n\tb  ".data) (by decide)

set_option maxRecDepth 10000 in
/-- Counterexample to C2 as stated: at the default maximum line length 200,
the 201-character input of 199 letters, a space and a letter is truncated to
199 letters followed by one space, and the second application trims that
trailing space, so normalizeMessage of the normalized string differs from
the normalized string. -/
theorem c2_counterexample :
    Logger.normalizeMessage 200
        (Logger.normalizeMessage 200 (List.replicate 199 'a' ++ [' ', 'b']))
      ≠ Logger.normalizeMessage 200 (List.replicate 199 'a' ++ [' ', 'b']) := by
  decide

/-- C7 amended: for every input and maximum length, the output of
normalizeMessage has every whitespace character equal to a plain space (so
no carriage returns, line feeds or tabs remain), has no two adjacent
whitespace characters (so no run of two or more spaces), and is no longer
than the maximum; however control characters outside the whitespace class
(such as the NUL of the counterexample) are preserved, because the source's
control-character replace is commented out. -/
theorem normalizeMessage_output_clean (maxLen : Nat) (s : List Char) :
    WsOnlySpace (Logger.normalizeMessage maxLen s) ∧
      NoAdjWs (Logger.normalizeMessage maxLen s) ∧
      (Logger.normalizeMessage maxLen s).length ≤ maxLen ∧
      '\r' ∉ Logger.normalizeMessage maxLen s ∧
      '\n' ∉ Logger.normalizeMessage maxLen s ∧
      '\t' ∉ Logger.normalizeMessage maxLen s := by
  have hws := normalize_wsOnly maxLen s
  refine ⟨hws, normalize_noAdj maxLen s, normalize_length_le maxLen s, ?_, ?_, ?_⟩ <;>
    first
      | exact fun hm => absurd (hws '\r' hm (by decide)) (by decide)
      | exact fun hm => absurd (hws '\n' hm (by decide)) (by decide)
      | exact fun hm => absurd (hws '\t' hm (by decide)) (by decide)

/-- Witness for normalizeMessage_output_clean on a concrete messy input. -/
theorem normalize_output_clean_witness :
    WsOnlySpace (Logger.normalizeMessage 200 ("a\t\t b\r\nc".data)) ∧
      NoAdjWs (Logger.normalizeMessage 200 ("a\t\t b\r\nc".data)) ∧
      (Logger.normalizeMessage 200 ("a\t\t b\r\nc".data)).length ≤ 200 ∧
      '\r' ∉ Logger.normalizeMessage 200 ("a\t\t b\r\nc".data) ∧
      '\n' ∉ Logger.normalizeMessage 200 ("a\t\t b\r\nc".data) ∧
      '\t' ∉ Logger.normalizeMessage 200 ("a\t\t b\r\nc".data) :=
  normalizeMessage_output_clean 200 ("a\t\t b\r\nc".data)

/-- Counterexample to C7 as stated: the input holds a TAB (so it is in the
claim's scope) and a NUL; the NUL, a control character, survives
normalizeMessage because the source's control-character replace is
commented out. -/
theorem c7_counterexample :
    '\t' ∈ ("a\x00\tb".data) ∧
      '\x00' ∈ Logger.normalizeMessage 200 ("a\x00\tb".data) ∧
      '\x00'.toNat < 32 := by
  decide
